import Mathlib

/-
Verification of the interactive line-editing and command-dispatch engine of
the obsidian-terminal-sidebar plugin (src/main.ts, class TerminalView).

The engine is shallowly embedded: JavaScript strings are Lean `String`s
(lists of characters), the xterm display surface is a trace of `DisplayOp`
events, Node's `child_process.exec` is a queue of pending execution
requests whose completion callback is modelled separately, and the
filesystem probed by the built-in `cd` is a function from paths to
`StatResult`.
-/

namespace TerminalSidebar

/-- Whitespace characters removed by JavaScript `String.prototype.trim`
(ECMAScript WhiteSpace and LineTerminator; the rarely used further Unicode
space separators are omitted, they do not occur in the analysed strings). -/
def isJsWs (c : Char) : Bool :=
  c == ' ' || c == '\t' || c == '\n' || c == '\r' ||
  c == '\x0b' || c == '\x0c' || c == '\u00A0' || c == '\uFEFF'

/-- Character-list form of JavaScript `trim`: drop whitespace from both ends. -/
def jsTrimList (l : List Char) : List Char :=
  ((l.dropWhile isJsWs).reverse.dropWhile isJsWs).reverse

/-- JavaScript `s.trim()`. -/
def jsTrim (s : String) : String :=
  ⟨jsTrimList s.data⟩

/-- Boolean test that `pre` is a leading segment of `l`. -/
def hasPre : List Char → List Char → Bool
  | [], _ => true
  | _ :: _, [] => false
  | p :: ps, c :: cs => p == c && hasPre ps cs

/-- JavaScript `s.startsWith(pre)`. -/
def jsStartsWith (s pre : String) : Bool :=
  hasPre pre.data s.data

/-- JavaScript `s.substring(n)` / `s.slice(n)` for `0 ≤ n ≤ s.length`. -/
def jsDrop (s : String) (n : Nat) : String :=
  ⟨s.data.drop n⟩

/-- Operations the engine issues against the xterm display surface. -/
inductive DisplayOp where
  | write (s : String)
  | writeln (s : String)
  | clear
  | scrollTop
  | scrollBottom
  deriving DecidableEq, Repr

/-- Byte contribution of one display operation (`Terminal.writeln` appends
CRLF to its argument; scrolling and clearing write no bytes). -/
def renderOp : DisplayOp → String
  | .write s => s
  | .writeln s => s ++ "\r\n"
  | .clear => ""
  | .scrollTop => ""
  | .scrollBottom => ""

/-- Byte stream produced by a trace of display operations. -/
def renderOps : List DisplayOp → String
  | [] => ""
  | op :: rest => renderOp op ++ renderOps rest

/-- Red ANSI error rendering used for stderr, failure messages and cd errors. -/
def errWrap (s : String) : String :=
  "\x1b[31m" ++ s ++ "\x1b[0m"

/-- Prompt text built by `TerminalView.writePrompt` (src/main.ts:311):
optional leading CRLF, the working directory in ANSI green, then ` $ `. -/
def promptString (newLine : Bool) (cwd : String) : String :=
  (if newLine then "\r\n" else "") ++ "\x1b[32m" ++ cwd ++ "\x1b[0m $ "

/-- Display operations of `TerminalView.writePrompt` (src/main.ts:310-317). -/
def writePromptOps (newLine scroll : Bool) (cwd : String) : List DisplayOp :=
  DisplayOp.write (promptString newLine cwd) ::
    (if scroll then [DisplayOp.scrollBottom] else [])

/-- POSIX `path.isAbsolute`: the path starts with a slash. -/
def isAbsolute (p : String) : Bool :=
  hasPre ['/'] p.data

/-- Splitting a character list at `/` separators. -/
def splitSlashAux : List Char → List Char → List String
  | [], acc => [⟨acc.reverse⟩]
  | c :: cs, acc =>
      if c = '/' then ⟨acc.reverse⟩ :: splitSlashAux cs []
      else splitSlashAux cs (c :: acc)

/-- Path components of a string, split at `/`. -/
def splitSlash (s : String) : List String :=
  splitSlashAux s.data []

/-- One step of Node's lexical path normalization for an absolute path
(`allowAboveRoot = false`): empty and `.` components are dropped, `..` pops
the previous component (or is dropped at the root), anything else is kept.
The stack holds the output components in reverse order. -/
def normStep (stack : List String) (comp : String) : List String :=
  if comp = "" ∨ comp = "." then stack
  else if comp = ".." then stack.tail
  else comp :: stack

/-- Normalized component list of a path interpreted as absolute. -/
def resolveComponents (p : String) : List String :=
  ((splitSlash p).foldl normStep []).reverse

/-- Node `path.resolve` on a path that is (or is made) absolute: purely
lexical normalization, collapsing `.`, `..`, and repeated slashes; symlinks
are never consulted. -/
def resolveAbs (p : String) : String :=
  "/" ++ String.intercalate "/" (resolveComponents p)

/-- Node `path.resolve(p)`: a relative `p` is first prefixed with the
process working directory, then the path is lexically normalized. -/
def pathResolve (processCwd p : String) : String :=
  if isAbsolute p then resolveAbs p else resolveAbs (processCwd ++ "/" ++ p)

/-- Node `path.join(a, b)` as used here: separator concatenation. Node's
`join` also lexically normalizes its result, but in `changeDirectory` every
join result is immediately passed to `path.resolve`, whose normalization
subsumes the one `join` would perform, so the composition is faithful. -/
def pathJoin (a b : String) : String :=
  a ++ "/" ++ b

/-- Result of probing a path with `fs.existsSync` / `fs.statSync`:
the path is missing, a non-directory, a directory, or the probe throws. -/
inductive StatResult where
  | missing
  | file
  | dir
  | error (msg : String)
  deriving DecidableEq, Repr

/-- Ambient system facts the engine reads: the filesystem probe, the home
directory, the Node process working directory (base of `path.resolve` for
relative inputs) and the inherited process environment. -/
structure SysEnv where
  fs : String → StatResult
  home : String
  processCwd : String
  processEnv : List (String × String)

/-- Result of the built-in `cd`: the (possibly updated) working directory
and the display operations issued. -/
structure CdOutcome where
  cwd : String
  ops : List DisplayOp
  deriving DecidableEq, Repr

/-- Target resolution of `TerminalView.changeDirectory` (src/main.ts:394-405):
`~` becomes the home directory, `~/rest` joins home with `rest`, a relative
target joins the engine's working directory, and the result is passed to
`path.resolve`. -/
def resolveCdTarget (home cwd processCwd newPath : String) : String :=
  let targetPath :=
    if newPath = "~" then home
    else if jsStartsWith newPath "~/" then pathJoin home (jsDrop newPath 2)
    else if !(isAbsolute newPath) then pathJoin cwd newPath
    else newPath
  pathResolve processCwd targetPath

/-- The built-in `cd` (src/main.ts:392-418): resolve the target, keep it as
the new working directory when the filesystem reports an existing directory,
otherwise write the error line; an exception from the probe is caught and
rendered as `cd: <message>`. Every branch ends with `writePrompt()`. -/
def changeDirectory (env : SysEnv) (cwd newPath : String) : CdOutcome :=
  let target := resolveCdTarget env.home cwd env.processCwd newPath
  match env.fs target with
  | .dir =>
      { cwd := target, ops := writePromptOps true true target }
  | .missing =>
      { cwd := cwd,
        ops := DisplayOp.writeln (errWrap ("cd: no such file or directory: " ++ newPath)) ::
          writePromptOps true true cwd }
  | .file =>
      { cwd := cwd,
        ops := DisplayOp.writeln (errWrap ("cd: no such file or directory: " ++ newPath)) ::
          writePromptOps true true cwd }
  | .error m =>
      { cwd := cwd,
        ops := DisplayOp.writeln (errWrap ("cd: " ++ m)) ::
          writePromptOps true true cwd }

/-- One pending `child_process.exec` call: the command string, the working
directory passed as its `cwd` option, and the environment it inherits. -/
structure ExecRequest where
  command : String
  cwd : String
  env : List (String × String)
  deriving DecidableEq, Repr

/-- State of one engine instance: the uncommitted input line
(`currentLine`), the authoritative working directory (`cwd`) and the
executions whose completion callback has not yet run. -/
structure EngineState where
  currentLine : String
  cwd : String
  pendingExecs : List ExecRequest
  deriving DecidableEq, Repr

/-- Completion payload of `child_process.exec`: captured stdout and stderr
and, on failure, the error's message. -/
structure ExecResult where
  stdout : String
  stderr : String
  error : Option String
  deriving DecidableEq, Repr

/-- The `exec` completion callback (src/main.ts:378-389): write stdout if
truthy, stderr in red if truthy, the error message in red when a failure
occurred and stderr is empty, then re-arm the prompt. -/
def execCallback (cwd : String) (r : ExecResult) : List DisplayOp :=
  (if r.stdout = "" then [] else [DisplayOp.write r.stdout]) ++
  (if r.stderr = "" then [] else [DisplayOp.write (errWrap r.stderr)]) ++
  (match r.error with
   | some m => if r.stderr = "" then [DisplayOp.writeln (errWrap m)] else []
   | none => []) ++
  writePromptOps true true cwd

/-- `TerminalView.executeCommand` (src/main.ts:346-390): built-ins checked
in order (`cd ` prefix, `clear`/`cls`, `pwd`), otherwise the command is
handed to `exec` with the engine's working directory and the inherited
environment; the exec callback is modelled separately by `execCallback`,
the request being recorded as pending. -/
def executeCommand (env : SysEnv) (st : EngineState) (command : String) :
    EngineState × List DisplayOp :=
  if jsStartsWith command "cd " then
    let o := changeDirectory env st.cwd (jsTrim (jsDrop command 3))
    ({ st with cwd := o.cwd }, o.ops)
  else if command = "clear" ∨ command = "cls" then
    (st, DisplayOp.clear :: (writePromptOps false false st.cwd ++ [DisplayOp.scrollTop]))
  else if command = "pwd" then
    (st, DisplayOp.writeln st.cwd :: writePromptOps true true st.cwd)
  else
    ({ st with pendingExecs :=
        st.pendingExecs ++ [{ command := command, cwd := st.cwd, env := env.processEnv }] },
      [])

/-- `data.charCodeAt(0)` of an input chunk; an out-of-range read (empty
chunk) yields NaN in JavaScript, which fails every comparison in
`handleInput`, as does the stand-in value 0. -/
def inputCode (data : String) : Nat :=
  match data.data with
  | [] => 0
  | c :: _ => c.toNat

/-- `TerminalView.handleInput` (src/main.ts:319-344): Enter echoes CRLF and
submits the trimmed line when non-blank (then clears it), Backspace erases
one character when present, Ctrl-C discards the line and re-prompts,
printable chunks are appended and echoed, other control codes are ignored. -/
def handleInput (env : SysEnv) (st : EngineState) (data : String) :
    EngineState × List DisplayOp :=
  let code := inputCode data
  if code = 13 then
    if jsTrim st.currentLine ≠ "" then
      let r := executeCommand env st (jsTrim st.currentLine)
      ({ r.1 with currentLine := "" }, DisplayOp.write "\r\n" :: r.2)
    else
      ({ st with currentLine := "" },
        DisplayOp.write "\r\n" :: writePromptOps true true st.cwd)
  else if code = 127 then
    if st.currentLine.length > 0 then
      ({ st with currentLine := ⟨st.currentLine.data.dropLast⟩ },
        [DisplayOp.write "\x08 \x08"])
    else (st, [])
  else if code = 3 then
    ({ st with currentLine := "" },
      DisplayOp.write "^C\r\n" :: writePromptOps true true st.cwd)
  else if 32 ≤ code then
    ({ st with currentLine := st.currentLine ++ data }, [DisplayOp.write data])
  else (st, [])

/-- The exec completion event for the oldest pending request: its callback
output is written with the working directory current at completion time. -/
def execComplete (st : EngineState) (r : ExecResult) :
    EngineState × List DisplayOp :=
  ({ st with pendingExecs := st.pendingExecs.tail }, execCallback st.cwd r)

/-- JavaScript `a || b` on an optional string: the fallback is used when the
first operand is absent or empty. -/
def jsOrElse (a : Option String) (b : String) : String :=
  match a with
  | some s => if s = "" then b else s
  | none => b

/-- The resolved home directory of the constructor
(src/main.ts:175): `process.env.HOME || process.env.USERPROFILE || os.homedir()`. -/
def resolvedHome (envHOME envUSERPROFILE : Option String) (osHomedir : String) : String :=
  jsOrElse envHOME (jsOrElse envUSERPROFILE osHomedir)

/-- Initial working directory chosen by the `TerminalView` constructor
(src/main.ts:168-177): a truthy, non-blank configured startup directory is
adopted trimmed, otherwise the resolved home directory is used. -/
def initialCwd (startupDirectory : String) (home : String) : String :=
  if startupDirectory ≠ "" ∧ jsTrim startupDirectory ≠ "" then jsTrim startupDirectory
  else home

/-- A path component is in normal form when it is neither empty nor a dot
nor a dot-dot. -/
def goodComp (c : String) : Prop :=
  c ≠ "" ∧ c ≠ "." ∧ c ≠ ".."

/-- Concrete filesystem used to instantiate theorems: one directory, one
plain file, one path whose probe throws, everything else missing. -/
def fsDemo : String → StatResult := fun p =>
  if p = "/home/user/docs" then StatResult.dir
  else if p = "/home/user/notes.txt" then StatResult.file
  else if p = "/home/user/locked" then StatResult.error "EACCES: permission denied"
  else StatResult.missing

/-- Concrete system environment used to instantiate theorems. -/
def envDemo : SysEnv :=
  { fs := fsDemo, home := "/home/user", processCwd := "/home/user",
    processEnv := [("PATH", "/usr/bin")] }

/-- Concrete engine state with an empty input line and nothing in flight. -/
def stIdle : EngineState :=
  { currentLine := "", cwd := "/home/user", pendingExecs := [] }

/-- Concrete engine state in which one external execution is outstanding
while the user has typed a further command. -/
def stBusy : EngineState :=
  { currentLine := "ls", cwd := "/home/user",
    pendingExecs := [{ command := "sleep 5", cwd := "/home/user", env := [("PATH", "/usr/bin")] }] }

/-- Concrete engine state whose pending line is whitespace only. -/
def stBlank : EngineState :=
  { currentLine := "   ", cwd := "/home/user", pendingExecs := [] }

/-- Concrete engine state whose pending line is a `cd` command with
surrounding whitespace. -/
def stCd : EngineState :=
  { currentLine := " cd  docs ", cwd := "/home/user", pendingExecs := [] }

/-- Strings are equal exactly when their character lists are. -/
theorem strEq_data {s t : String} : s = t ↔ s.data = t.data := by
  cases s
  cases t
  exact ⟨fun h => by injection h, fun h => congrArg String.mk h⟩

/-- Character list of a concatenation. -/
theorem data_append (s t : String) : (s ++ t).data = s.data ++ t.data := rfl

/-- The first element surviving `dropWhile` falsifies the predicate. -/
theorem dropWhile_head_false {α : Type} (p : α → Bool) (l : List α) (a : α) (t : List α)
    (h : l.dropWhile p = a :: t) : p a = false := by
  induction l with
  | nil => simp [List.dropWhile] at h
  | cons c cs ih =>
      rw [List.dropWhile_cons] at h
      by_cases hc : p c
      · exact ih (by simpa [hc] using h)
      · simp [hc] at h
        simp [← h.1, Bool.eq_false_iff, hc]

/-- A trimmed character list never ends in a whitespace character. -/
theorem jsTrimList_getLast (l : List Char) (a : Char)
    (h : (jsTrimList l).getLast? = some a) : isJsWs a = false := by
  unfold jsTrimList at h
  rw [List.getLast?_reverse] at h
  rcases hd : ((l.dropWhile isJsWs).reverse.dropWhile isJsWs) with _ | ⟨b, t⟩
  · rw [hd] at h
    simp at h
  · rw [hd] at h
    simp at h
    rw [← h]
    exact dropWhile_head_false _ _ _ _ hd

/-- A character list trimming to nothing consists of whitespace only. -/
theorem jsTrimList_eq_nil (l : List Char) (h : jsTrimList l = []) :
    ∀ x ∈ l, isJsWs x = true := by
  unfold jsTrimList at h
  rw [List.reverse_eq_nil_iff, List.dropWhile_eq_nil_iff] at h
  intro x hx
  rw [← List.takeWhile_append_dropWhile (p := isJsWs) (l := l)] at hx
  rcases List.mem_append.mp hx with hx | hx
  · exact List.mem_takeWhile_imp hx
  · exact h x (List.mem_reverse.mpr hx)

/-- A character list starting with `cd ` decomposes after the prefix. -/
theorem hasPre_cd (l : List Char) (h : hasPre ['c', 'd', ' '] l = true) :
    ∃ r, l = 'c' :: 'd' :: ' ' :: r := by
  match l with
  | [] => simp [hasPre] at h
  | [_] => simp [hasPre] at h
  | [_, _] => simp [hasPre] at h
  | a :: b :: c :: r =>
      simp [hasPre] at h
      exact ⟨r, by rw [← h.1, ← h.2.1, ← h.2.2]⟩

/-- `getLast?` skips past a head when the tail is non-empty. -/
theorem getLast?_cons_of_ne_nil {α : Type} (a : α) (l : List α) (h : l ≠ []) :
    (a :: l).getLast? = l.getLast? := by
  rcases l with _ | ⟨b, t⟩
  · exact absurd rfl h
  · simp [List.getLast?_cons_cons]

/-- A non-empty list has a last element. -/
theorem getLast?_ne_none {α : Type} (l : List α) (h : l ≠ []) :
    ∃ a, l.getLast? = some a := by
  rcases l with _ | ⟨b, t⟩
  · exact absurd rfl h
  · exact ⟨(b :: t).getLast (by simp), List.getLast?_eq_getLast _ _⟩

/-- The last element of a list is a member. -/
theorem getLast?_mem {α : Type} (l : List α) (a : α) (h : l.getLast? = some a) :
    a ∈ l := by
  induction l with
  | nil => simp at h
  | cons b t ih =>
      rcases t with _ | ⟨c, u⟩
      · simp at h
        simp [h]
      · rw [List.getLast?_cons_cons] at h
        exact List.mem_cons_of_mem _ (ih h)

/-- An absolute path stays absolute under suffix concatenation. -/
theorem isAbsolute_append (a s : String) (h : isAbsolute a = true) :
    isAbsolute (a ++ s) = true := by
  unfold isAbsolute at h ⊢
  rw [data_append]
  rcases hd : a.data with _ | ⟨c, cs⟩
  · rw [hd] at h
    simp [hasPre] at h
  · rw [hd] at h
    simp [hasPre] at h ⊢
    exact h

/-- The output of `resolveAbs` is an absolute path. -/
theorem isAbsolute_resolveAbs (p : String) : isAbsolute (resolveAbs p) = true := by
  unfold resolveAbs
  exact isAbsolute_append "/" _ (by decide)

/-- The output of `pathResolve` is an absolute path. -/
theorem isAbsolute_pathResolve (processCwd p : String) :
    isAbsolute (pathResolve processCwd p) = true := by
  unfold pathResolve
  by_cases h : isAbsolute p <;> simp [h, isAbsolute_resolveAbs]

/-- `normStep` keeps the component stack in normal form. -/
theorem normStep_good (stack : List String) (c : String)
    (h : ∀ x ∈ stack, goodComp x) : ∀ x ∈ normStep stack c, goodComp x := by
  unfold normStep
  by_cases h1 : c = "" ∨ c = "."
  · simpa [h1] using h
  · by_cases h2 : c = ".."
    · simp [h1, h2]
      intro x hx
      exact h x (List.mem_of_mem_tail hx)
    · simp [h1, h2]
      rcases not_or.mp h1 with ⟨he, hd⟩
      exact ⟨⟨he, hd, h2⟩, h⟩

/-- Folding `normStep` keeps the component stack in normal form. -/
theorem foldl_normStep_good (l : List String) (stack : List String)
    (h : ∀ x ∈ stack, goodComp x) : ∀ x ∈ l.foldl normStep stack, goodComp x := by
  induction l generalizing stack with
  | nil => simpa using h
  | cons c cs ih => exact ih (normStep stack c) (normStep_good stack c h)

/-- Every component produced by lexical resolution is in normal form: no
empty component, no `.`, no `..`. -/
theorem resolveComponents_good (p : String) :
    ∀ x ∈ resolveComponents p, goodComp x := by
  unfold resolveComponents
  intro x hx
  exact foldl_normStep_good _ [] (by simp) x (List.mem_reverse.mp hx)

/-- A trimmed string that starts with `cd ` keeps a non-blank remainder
after the prefix: the remainder cannot be all whitespace, because the trim
that produced the string already removed trailing whitespace. -/
theorem cd_remainder_ne_empty (s : String)
    (h : jsStartsWith (jsTrim s) "cd " = true) :
    jsTrim (jsDrop (jsTrim s) 3) ≠ "" := by
  unfold jsStartsWith at h
  obtain ⟨r, hr⟩ := hasPre_cd (jsTrim s).data h
  intro hcon
  have hdrop : (jsDrop (jsTrim s) 3).data = r := by
    show (jsTrim s).data.drop 3 = r
    rw [hr]
    rfl
  have hnil : jsTrimList r = [] := by
    rw [← hdrop]
    exact strEq_data.mp hcon
  have hws : ∀ x ∈ r, isJsWs x = true := jsTrimList_eq_nil r hnil
  have hr' : jsTrimList s.data = 'c' :: 'd' :: ' ' :: r := hr
  by_cases hre : r = []
  · have hL : (jsTrimList s.data).getLast? = some ' ' := by
      rw [hr', hre]
      rfl
    have hbad := jsTrimList_getLast s.data ' ' hL
    simp [isJsWs] at hbad
  · obtain ⟨a, ha⟩ := getLast?_ne_none r hre
    have hwa := hws a (getLast?_mem r a ha)
    have hL : (jsTrimList s.data).getLast? = some a := by
      rw [hr']
      rw [getLast?_cons_of_ne_nil 'c' ('d' :: ' ' :: r) (by simp)]
      rw [getLast?_cons_of_ne_nil 'd' (' ' :: r) (by simp)]
      rw [getLast?_cons_of_ne_nil ' ' r hre]
      exact ha
    have hbad := jsTrimList_getLast s.data a hL
    rw [hwa] at hbad
    exact Bool.noConfusion hbad

/-- The resolved `cd` target is always an absolute path. -/
theorem isAbsolute_resolveCdTarget (home cwd processCwd t : String) :
    isAbsolute (resolveCdTarget home cwd processCwd t) = true := by
  unfold resolveCdTarget
  exact isAbsolute_pathResolve _ _

/-- C6: `executeCommand` checks built-ins in priority order with first match
winning: a command starting with `cd ` (case-sensitive) invokes path
resolution on the trimmed remainder; a command equal to `clear` or `cls`
clears the display; a command equal to `pwd` writes the working directory;
every other command is handed to the external `exec` collaborator with the
engine's working directory and the inherited environment. -/
theorem C6_dispatch_priority (env : SysEnv) (st : EngineState) (c : String) :
    (jsStartsWith c "cd " = true →
      executeCommand env st c =
        ({ st with cwd := (changeDirectory env st.cwd (jsTrim (jsDrop c 3))).cwd },
          (changeDirectory env st.cwd (jsTrim (jsDrop c 3))).ops))
  ∧ (c = "clear" ∨ c = "cls" →
      executeCommand env st c =
        (st, DisplayOp.clear :: (writePromptOps false false st.cwd ++ [DisplayOp.scrollTop])))
  ∧ (c = "pwd" →
      executeCommand env st c =
        (st, DisplayOp.writeln st.cwd :: writePromptOps true true st.cwd))
  ∧ (jsStartsWith c "cd " = false → c ≠ "clear" → c ≠ "cls" → c ≠ "pwd" →
      executeCommand env st c =
        ({ st with pendingExecs :=
            st.pendingExecs ++ [{ command := c, cwd := st.cwd, env := env.processEnv }] },
          [])) := by
  refine ⟨?_, ?_, ?_, ?_⟩
  · intro h
    simp [executeCommand, h]
  · have hclear : jsStartsWith "clear" "cd " = false := by decide
    have hcls : jsStartsWith "cls" "cd " = false := by decide
    rintro (rfl | rfl)
    · simp [executeCommand, hclear]
    · simp [executeCommand, hcls]
  · rintro rfl
    have hpwd : jsStartsWith "pwd" "cd " = false := by decide
    have h2 : ("pwd" : String) ≠ "clear" := by decide
    have h3 : ("pwd" : String) ≠ "cls" := by decide
    simp [executeCommand, hpwd, h2, h3]
  · intro h1 h2 h3 h4
    simp [executeCommand, h1, h2, h3, h4]

/-- C9: the exact command `cd` (no trailing space) matches no built-in —
it fails the `cd ` prefix test and the `clear`/`cls`/`pwd` equality tests —
and is handed to the external process-execution collaborator. -/
theorem C9_bare_cd_is_external (env : SysEnv) (st : EngineState) :
    executeCommand env st "cd" =
      ({ st with pendingExecs :=
          st.pendingExecs ++ [{ command := "cd", cwd := st.cwd, env := env.processEnv }] },
        [])
  ∧ jsStartsWith "cd" "cd " = false
  ∧ ("cd" : String) ≠ "clear" ∧ ("cd" : String) ≠ "cls" ∧ ("cd" : String) ≠ "pwd" := by
  have h1 : jsStartsWith "cd" "cd " = false := by decide
  have h2 : ("cd" : String) ≠ "clear" := by decide
  have h3 : ("cd" : String) ≠ "cls" := by decide
  have h4 : ("cd" : String) ≠ "pwd" := by decide
  exact ⟨by simp [executeCommand, h1, h2, h3, h4], h1, h2, h3, h4⟩

/-- C7: `pwd` emits exactly the working directory, a line break, and then
the prompt, whose framing bytes around the green directory segment are
exactly `\x1b[32m<cwd>\x1b[0m $ `, bit for bit (the prompt itself is
preceded by the CRLF that `writePrompt` prepends when re-arming). -/
theorem C7_pwd_output (env : SysEnv) (st : EngineState) :
    executeCommand env st "pwd" =
      (st, DisplayOp.writeln st.cwd :: writePromptOps true true st.cwd)
  ∧ renderOps (executeCommand env st "pwd").2 =
      st.cwd ++ "\r\n" ++ promptString true st.cwd
  ∧ promptString true st.cwd = "\r\n" ++ "\x1b[32m" ++ st.cwd ++ "\x1b[0m $ " := by
  have hpwd : jsStartsWith "pwd" "cd " = false := by decide
  have h2 : ("pwd" : String) ≠ "clear" := by decide
  have h3 : ("pwd" : String) ≠ "cls" := by decide
  have hmain : executeCommand env st "pwd" =
      (st, DisplayOp.writeln st.cwd :: writePromptOps true true st.cwd) := by
    simp [executeCommand, hpwd, h2, h3]
  refine ⟨hmain, ?_, by simp [promptString]⟩
  rw [hmain]
  apply strEq_data.mpr
  simp [renderOps, renderOp, writePromptOps, data_append]

/-- C4: a `cd` whose resolved target is missing or not a directory leaves
the working directory unchanged and writes exactly the error line
`cd: no such file or directory: <original target>` (error-rendered); an
exception during resolution is caught and rendered as `cd: <message>` with
the state likewise unchanged; and every branch ends with a prompt re-arm. -/
theorem C4_cd_error_handling (env : SysEnv) (cwd target : String) :
    ((env.fs (resolveCdTarget env.home cwd env.processCwd target) = StatResult.missing ∨
      env.fs (resolveCdTarget env.home cwd env.processCwd target) = StatResult.file) →
      changeDirectory env cwd target =
        { cwd := cwd,
          ops := DisplayOp.writeln (errWrap ("cd: no such file or directory: " ++ target)) ::
            writePromptOps true true cwd })
  ∧ (∀ m, env.fs (resolveCdTarget env.home cwd env.processCwd target) = StatResult.error m →
      changeDirectory env cwd target =
        { cwd := cwd,
          ops := DisplayOp.writeln (errWrap ("cd: " ++ m)) :: writePromptOps true true cwd })
  ∧ (∃ pre, (changeDirectory env cwd target).ops =
      pre ++ writePromptOps true true ((changeDirectory env cwd target).cwd)) := by
  refine ⟨?_, ?_, ?_⟩
  · rintro (h | h) <;> simp [changeDirectory, h]
  · intro m h
    simp [changeDirectory, h]
  · rcases h : env.fs (resolveCdTarget env.home cwd env.processCwd target) with _ | _ | _ | m
    · exact ⟨[DisplayOp.writeln (errWrap ("cd: no such file or directory: " ++ target))],
        by simp [changeDirectory, h]⟩
    · exact ⟨[DisplayOp.writeln (errWrap ("cd: no such file or directory: " ++ target))],
        by simp [changeDirectory, h]⟩
    · exact ⟨[], by simp [changeDirectory, h]⟩
    · exact ⟨[DisplayOp.writeln (errWrap ("cd: " ++ m))], by simp [changeDirectory, h]⟩

/-- C5: `cd` target resolution: `~` alone resolves to the home directory,
`~/rest` joins the home directory with the remainder, a non-absolute target
joins the current working directory; the result is lexically normalized
(absolute, with no empty, `.` or `..` components — symlinks are never
consulted), and the existence-and-directory check is performed on that
normalized result. -/
theorem C5_cd_path_resolution (home cwd processCwd target : String) :
    (target = "~" → isAbsolute home = true →
      resolveCdTarget home cwd processCwd target = resolveAbs home)
  ∧ (∀ rest, target = "~/" ++ rest → isAbsolute home = true →
      resolveCdTarget home cwd processCwd target = resolveAbs (pathJoin home rest))
  ∧ (target ≠ "~" → jsStartsWith target "~/" = false → isAbsolute target = false →
      isAbsolute cwd = true →
      resolveCdTarget home cwd processCwd target = resolveAbs (pathJoin cwd target))
  ∧ (∃ comps, resolveCdTarget home cwd processCwd target =
        "/" ++ String.intercalate "/" comps ∧
      ∀ x ∈ comps, x ≠ "" ∧ x ≠ "." ∧ x ≠ "..")
  ∧ (∀ env : SysEnv, env.home = home → env.processCwd = processCwd →
      (changeDirectory env cwd target).cwd ≠ cwd →
      (changeDirectory env cwd target).cwd = resolveCdTarget home cwd processCwd target ∧
        env.fs (resolveCdTarget home cwd processCwd target) = StatResult.dir) := by
  refine ⟨?_, ?_, ?_, ?_, ?_⟩
  · rintro rfl hhome
    simp [resolveCdTarget, pathResolve, hhome]
  · rintro rest rfl hhome
    have h1 : ("~/" ++ rest) ≠ "~" := by
      intro he
      have hd := strEq_data.mp he
      rw [data_append] at hd
      simp at hd
    have h2 : jsStartsWith ("~/" ++ rest) "~/" = true := by
      unfold jsStartsWith
      rw [data_append]
      simp [hasPre]
    have h3 : jsDrop ("~/" ++ rest) 2 = rest := by
      apply strEq_data.mpr
      show (("~/" ++ rest).data).drop 2 = rest.data
      rw [data_append]
      rfl
    have habs : isAbsolute (pathJoin home rest) = true :=
      isAbsolute_append (home ++ "/") rest (isAbsolute_append home "/" hhome)
    simp [resolveCdTarget, h1, h2, h3, pathResolve, habs]
  · intro h1 h2 h3 hcwd
    have habs : isAbsolute (pathJoin cwd target) = true :=
      isAbsolute_append (cwd ++ "/") target (isAbsolute_append cwd "/" hcwd)
    simp [resolveCdTarget, h1, h2, h3, pathResolve, habs]
  · have key : ∀ q : String, ∃ comps, pathResolve processCwd q =
        "/" ++ String.intercalate "/" comps ∧
        ∀ x ∈ comps, x ≠ "" ∧ x ≠ "." ∧ x ≠ ".." := by
      intro q
      unfold pathResolve
      by_cases habs : isAbsolute q = true
      · exact ⟨resolveComponents q, by simp [habs, resolveAbs],
          fun x hx => resolveComponents_good q x hx⟩
      · refine ⟨resolveComponents (processCwd ++ "/" ++ q), ?_,
          fun x hx => resolveComponents_good _ x hx⟩
        simp only [Bool.not_eq_true] at habs
        simp [habs, resolveAbs]
    exact key _
  · intro env he hp hne
    subst he
    subst hp
    rcases hfs : env.fs (resolveCdTarget env.home cwd env.processCwd target) with _ | _ | _ | m
    · exact absurd (by simp [changeDirectory, hfs]) hne
    · exact absurd (by simp [changeDirectory, hfs]) hne
    · exact ⟨by simp [changeDirectory, hfs], rfl⟩
    · exact absurd (by simp [changeDirectory, hfs]) hne

/-- C1 counterexample: a configured startup directory that is relative and
does not exist is adopted verbatim by the constructor — the working
directory it yields is not absolute, is not the home fallback, and the
filesystem reports it missing — so construction performs no validation and
no fallback for invalid configured directories. -/
theorem C1_counterexample :
    initialCwd "no-such-dir" "/home/user" = "no-such-dir" ∧
    isAbsolute (initialCwd "no-such-dir" "/home/user") = false ∧
    initialCwd "no-such-dir" "/home/user" ≠ "/home/user" ∧
    fsDemo (initialCwd "no-such-dir" "/home/user") = StatResult.missing := by
  refine ⟨by decide, by decide, by decide, by decide⟩

/-- C1 (amended): at construction an absent (empty or whitespace-only)
startup directory falls back to the resolved home directory, but a
non-blank configured startup directory is adopted as given (trimmed)
without any validation — it need not be absolute, existing, or a
directory; the built-in `cd` is the only other operation that sets the
working directory, and it assigns only absolute paths that the filesystem
reported as directories at the time of the check. -/
theorem C1_cwd_construction_amended :
    (∀ sd home, jsTrim sd = "" → initialCwd sd home = home)
  ∧ (∀ sd home, jsTrim sd ≠ "" → initialCwd sd home = jsTrim sd)
  ∧ (∀ env cwd t, (changeDirectory env cwd t).cwd = cwd ∨
      (env.fs ((changeDirectory env cwd t).cwd) = StatResult.dir ∧
        isAbsolute ((changeDirectory env cwd t).cwd) = true)) := by
  refine ⟨?_, ?_, ?_⟩
  · intro sd home h
    simp [initialCwd, h]
  · intro sd home h
    have hsd : sd ≠ "" := by
      intro he
      subst he
      exact h rfl
    simp [initialCwd, h, hsd]
  · intro env cwd t
    rcases hfs : env.fs (resolveCdTarget env.home cwd env.processCwd t) with _ | _ | _ | m
    · left
      simp [changeDirectory, hfs]
    · left
      simp [changeDirectory, hfs]
    · right
      refine ⟨?_, ?_⟩
      · simp [changeDirectory, hfs]
      · simp [changeDirectory, hfs, isAbsolute_resolveCdTarget]
    · left
      simp [changeDirectory, hfs]

/-- C8: on an Enter input event, CRLF is echoed; when the pending line is
non-blank after trimming, exactly the trimmed line is dispatched and the
pending line is cleared; when it is empty or whitespace-only no command is
dispatched and the prompt is re-armed exactly once. -/
theorem C8_enter_submission (env : SysEnv) (st : EngineState) (data : String)
    (hEnter : inputCode data = 13) :
    (jsTrim st.currentLine = "" →
      handleInput env st data =
        ({ st with currentLine := "" },
          DisplayOp.write "\r\n" :: writePromptOps true true st.cwd))
  ∧ (jsTrim st.currentLine ≠ "" →
      handleInput env st data =
        ({ (executeCommand env st (jsTrim st.currentLine)).1 with currentLine := "" },
          DisplayOp.write "\r\n" :: (executeCommand env st (jsTrim st.currentLine)).2)) := by
  constructor
  · intro h
    simp [handleInput, hEnter, h]
  · intro h
    simp [handleInput, hEnter, h]

/-- C3: on completion of an external execution, stdout is written verbatim
iff non-empty, stderr is written in the red error rendering iff non-empty,
the failure message is written (error-rendered) iff a failure occurred and
stderr is empty — so the failure message and stderr are never both shown —
and the prompt is re-armed in every case. -/
theorem C3_exec_completion (cwd : String) (r : ExecResult) :
    execCallback cwd r =
      (if r.stdout = "" then [] else [DisplayOp.write r.stdout]) ++
      (if r.error ≠ none ∧ r.stderr = ""
        then (if r.stderr = "" then [] else [DisplayOp.write (errWrap r.stderr)]) ++
          [DisplayOp.writeln (errWrap (r.error.getD ""))]
        else (if r.stderr = "" then [] else [DisplayOp.write (errWrap r.stderr)])) ++
      writePromptOps true true cwd
  ∧ (r.stderr ≠ "" → ∀ m, DisplayOp.writeln (errWrap m) ∉ execCallback cwd r) := by
  rcases r with ⟨o, e, err⟩
  constructor
  · cases err <;> by_cases he : e = "" <;> simp [execCallback, he]
  · intro hne m
    have he : ¬e = "" := hne
    cases err <;> simp [execCallback, he, writePromptOps]

/-- C2 counterexample: with one external execution outstanding and a typed
line `ls`, the Enter event immediately starts a second dispatch — the
pending-execution list grows from one to two — rather than queuing or
rejecting the submission. -/
theorem C2_counterexample :
    stBusy.pendingExecs.length = 1 ∧
    (handleInput envDemo stBusy "\r").1.pendingExecs.length = 2 ∧
    (handleInput envDemo stBusy "\r").1.pendingExecs =
      stBusy.pendingExecs ++
        [{ command := "ls", cwd := "/home/user", env := envDemo.processEnv }] := by
  refine ⟨rfl, by decide, by decide⟩

/-- C2 (amended): a line submitted while an external execution is
outstanding is neither queued nor rejected: for a non-built-in command the
Enter event immediately appends a second execution request, concurrent with
the outstanding one. -/
theorem C2_no_single_flight_amended (env : SysEnv) (st : EngineState)
    (_hOut : st.pendingExecs ≠ [])
    (hLine : jsTrim st.currentLine ≠ "")
    (h1 : jsStartsWith (jsTrim st.currentLine) "cd " = false)
    (h2 : jsTrim st.currentLine ≠ "clear") (h3 : jsTrim st.currentLine ≠ "cls")
    (h4 : jsTrim st.currentLine ≠ "pwd") :
    (handleInput env st "\r").1.pendingExecs =
      st.pendingExecs ++
        [{ command := jsTrim st.currentLine, cwd := st.cwd, env := env.processEnv }] ∧
    (handleInput env st "\r").1.pendingExecs.length = st.pendingExecs.length + 1 := by
  have hE : inputCode "\r" = 13 := by decide
  have hmain : (handleInput env st "\r").1.pendingExecs =
      st.pendingExecs ++
        [{ command := jsTrim st.currentLine, cwd := st.cwd, env := env.processEnv }] := by
    simp [handleInput, hE, hLine, executeCommand, h1, h2, h3, h4]
  exact ⟨hmain, by rw [hmain]; simp⟩

/-- C10: a command submitted through the integrated interface is the
trimmed pending line; if it enters the built-in `cd` branch (starts with
`cd `) then the extracted target — the substring after `cd `, trimmed — is
necessarily non-empty, so the empty-target resolution path is unreachable
through submit-then-dispatch. -/
theorem C10_cd_target_nonempty (env : SysEnv) (st : EngineState)
    (h : jsStartsWith (jsTrim st.currentLine) "cd " = true) :
    jsTrim (jsDrop (jsTrim st.currentLine) 3) ≠ "" ∧
    (handleInput env st "\r").2 =
      DisplayOp.write "\r\n" ::
        (changeDirectory env st.cwd (jsTrim (jsDrop (jsTrim st.currentLine) 3))).ops := by
  refine ⟨cd_remainder_ne_empty st.currentLine h, ?_⟩
  have hlineNe : jsTrim st.currentLine ≠ "" := by
    intro he
    rw [he] at h
    have : jsStartsWith "" "cd " = false := by decide
    rw [this] at h
    exact Bool.noConfusion h
  have hE : inputCode "\r" = 13 := by decide
  simp [handleInput, hE, hlineNe, executeCommand, h]

/-- Witness for C1: the fallback fires on a whitespace-only configured
directory, and a non-blank configured directory is adopted trimmed. -/
theorem C1_cwd_construction_amended_witness :
    initialCwd "   " "/home/user" = "/home/user" ∧
    initialCwd "  /home/user/docs  " "/home/user" = jsTrim "  /home/user/docs  " :=
  ⟨C1_cwd_construction_amended.1 "   " "/home/user" (by decide),
   C1_cwd_construction_amended.2.1 "  /home/user/docs  " "/home/user" (by decide)⟩

/-- Witness for C2 (amended): with one execution outstanding, Enter on the
typed line `ls` appends a second execution request. -/
theorem C2_no_single_flight_amended_witness :
    (handleInput envDemo stBusy "\r").1.pendingExecs =
      stBusy.pendingExecs ++
        [{ command := jsTrim stBusy.currentLine, cwd := stBusy.cwd,
           env := envDemo.processEnv }] :=
  (C2_no_single_flight_amended envDemo stBusy (by decide) (by decide) (by decide)
    (by decide) (by decide) (by decide)).1

/-- Witness for C3: with non-empty stderr, the failure message is not
written even though a failure occurred. -/
theorem C3_exec_completion_witness :
    DisplayOp.writeln (errWrap "boom") ∉
      execCallback "/home/user" ⟨"out", "err", some "boom"⟩ :=
  (C3_exec_completion "/home/user" ⟨"out", "err", some "boom"⟩).2 (by decide) "boom"

/-- Witness for C4: a missing target yields exactly the error line with the
original target, and a throwing probe yields `cd: <message>`. -/
theorem C4_cd_error_handling_witness :
    changeDirectory envDemo "/home/user" "nope" =
      { cwd := "/home/user",
        ops := DisplayOp.writeln (errWrap ("cd: no such file or directory: " ++ "nope")) ::
          writePromptOps true true "/home/user" } ∧
    changeDirectory envDemo "/home/user" "locked" =
      { cwd := "/home/user",
        ops := DisplayOp.writeln (errWrap ("cd: " ++ "EACCES: permission denied")) ::
          writePromptOps true true "/home/user" } :=
  ⟨(C4_cd_error_handling envDemo "/home/user" "nope").1 (Or.inl (by decide)),
   (C4_cd_error_handling envDemo "/home/user" "locked").2.1
     "EACCES: permission denied" (by decide)⟩

/-- Witness for C5: the three resolution cases at concrete targets. -/
theorem C5_cd_path_resolution_witness :
    resolveCdTarget "/home/user" "/work" "/proc" "~" = resolveAbs "/home/user" ∧
    resolveCdTarget "/home/user" "/work" "/proc" "~/docs" =
      resolveAbs (pathJoin "/home/user" "docs") ∧
    resolveCdTarget "/home/user" "/work" "/proc" "sub/../d" =
      resolveAbs (pathJoin "/work" "sub/../d") :=
  ⟨(C5_cd_path_resolution "/home/user" "/work" "/proc" "~").1 rfl (by decide),
   (C5_cd_path_resolution "/home/user" "/work" "/proc" "~/docs").2.1 "docs"
     (by decide) (by decide),
   (C5_cd_path_resolution "/home/user" "/work" "/proc" "sub/../d").2.2.1
     (by decide) (by decide) (by decide) (by decide)⟩

/-- Witness for C6: a `cd `-prefixed command enters the cd branch and
`clear` enters the clear branch. -/
theorem C6_dispatch_priority_witness :
    executeCommand envDemo stIdle "cd docs" =
      ({ stIdle with
          cwd := (changeDirectory envDemo stIdle.cwd (jsTrim (jsDrop "cd docs" 3))).cwd },
        (changeDirectory envDemo stIdle.cwd (jsTrim (jsDrop "cd docs" 3))).ops) ∧
    executeCommand envDemo stIdle "clear" =
      (stIdle, DisplayOp.clear ::
        (writePromptOps false false stIdle.cwd ++ [DisplayOp.scrollTop])) :=
  ⟨(C6_dispatch_priority envDemo stIdle "cd docs").1 (by decide),
   (C6_dispatch_priority envDemo stIdle "clear").2.1 (Or.inl rfl)⟩

/-- Witness for C8: Enter on a whitespace-only line re-prompts exactly once
and dispatches nothing. -/
theorem C8_enter_submission_witness :
    handleInput envDemo stBlank "\r" =
      ({ stBlank with currentLine := "" },
        DisplayOp.write "\r\n" :: writePromptOps true true stBlank.cwd) :=
  (C8_enter_submission envDemo stBlank "\r" (by decide)).1 (by decide)

/-- Witness for C10: the submitted line ` cd  docs ` trims to a `cd `
command whose extracted target is non-empty. -/
theorem C10_cd_target_nonempty_witness :
    jsTrim (jsDrop (jsTrim stCd.currentLine) 3) ≠ "" :=
  (C10_cd_target_nonempty envDemo stCd (by decide)).1

end TerminalSidebar
